import Mathlib

/-!
Shallow embedding of the MOLA MEGDR label-analysis scripts
(`analyze_mola_labels.py` and `check_jezero_coverage.py`).

Parsed label records become a structure with optional rational fields
(floating-point degree values are embedded as rationals; every numeric
operation performed by the scripts is order comparison, addition,
subtraction, multiplication and absolute value, which agree with the
rational semantics on the decimal literals involved).  The two Python
exceptions the analysis can actually raise (`int("None")` and comparing
`None` with a number) are modelled with an `Except` result.
-/

/-- The Python exception classes reachable from `print_summary`. -/
inductive PyErr
  | valueError
  | typeError
  deriving DecidableEq, Repr

/-- One parsed label record, as produced by `extract_key_info`:
`filename`, `region`, the four optional geographic bounds, the optional
`pixels_per_degree` resolution and the (unused downstream) grid sizes. -/
structure Info where
  filename : String
  region : String
  lat_min : Option ℚ
  lat_max : Option ℚ
  lon_min : Option ℚ
  lon_max : Option ℚ
  pixels_per_degree : Option ℤ
  rasterLines : Option ℤ
  samples : Option ℤ
  deriving DecidableEq, Repr

/-- Appending a record to the group of key `key` inside an insertion-ordered
association list, creating the group at the end if absent.  This is the
behaviour of `defaultdict(list)` updates keyed by an (injectively
stringified) key, with Python dict insertion order. -/
def insertKeyed {κ : Type} [DecidableEq κ] (key : κ) (r : Info) :
    List (κ × List Info) → List (κ × List Info)
  | [] => [(key, [r])]
  | g :: gs => if g.1 = key then (g.1, g.2 ++ [r]) :: gs else g :: insertKeyed key r gs

/-- `analyze_all_labels`: group the records by the resolution key
`f"{info['pixels_per_degree']} pixels/degree"`.  The f-string is injective
on `Option ℤ` (distinct integers give distinct strings, and `None` gives
the separate key `"None pixels/degree"`), so grouping by the string is the
same as grouping by the optional integer. -/
def analyze_all_labels (records : List Info) : List (Option ℤ × List Info) :=
  records.foldl (fun acc r => insertKeyed r.pixels_per_degree r acc) []

/-- Iterating `for dataset in datasets.values(): for file_info in dataset`. -/
def flattenGroups {κ : Type} (gs : List (κ × List Info)) : List Info :=
  gs.foldr (fun g acc => g.2 ++ acc) []

/-- `pat` occurs at the head of the character list. -/
def leadMatch : List Char → List Char → Bool
  | [], _ => true
  | _ :: _, [] => false
  | a :: as, b :: bs => a = b && leadMatch as bs

/-- `pat` occurs as a contiguous sublist. -/
def containsSub (pat : List Char) : List Char → Bool
  | [] => pat.isEmpty
  | b :: bs => leadMatch pat (b :: bs) || containsSub pat bs

/-- Python's substring test `pat in s`. -/
def strIn (pat s : String) : Bool := containsSub pat.toList s.toList

/-- `abs(lat_max - lat_min) if (file_info['lat_max'] and file_info['lat_min']) else 0`:
the guard is Python truthiness, so a *present* bound equal to `0.0` is
treated like a missing one. -/
def latRange (f : Info) : ℚ :=
  match f.lat_max, f.lat_min with
  | some b, some a => if b ≠ 0 ∧ a ≠ 0 then |b - a| else 0
  | _, _ => 0

/-- `abs(lon_max - lon_min) if (file_info['lon_max'] and file_info['lon_min']) else 0`. -/
def lonRange (f : Info) : ℚ :=
  match f.lon_max, f.lon_min with
  | some b, some a => if b ≠ 0 ∧ a ≠ 0 then |b - a| else 0
  | _, _ => 0

/-- `coverage = lat_range * lon_range` for one record. -/
def fileCoverage (f : Info) : ℚ := latRange f * lonRange f

/-- `sorted(region_files, key=lambda x: x['filename'])` (stable sort). -/
def sortByFilename (files : List Info) : List Info :=
  files.insertionSort (fun a b => a.filename ≤ b.filename)

/-- `total_coverage`: the running sum accumulated over the per-file loop of
`print_summary` (the loop runs over the filename-sorted copy; the sum does
not depend on the order, but we keep the sort). -/
def totalCoverage (files : List Info) : ℚ :=
  (sortByFilename files).foldl (fun acc f => acc + fileCoverage f) 0

/-- The fixed region-group names iterated by `print_summary`. -/
def regionGroupNames : List String :=
  ["Equatorial", "Mid-North", "Mid-South", "Near-Polar North",
   "Near-Polar South", "North Polar", "South Polar"]

/-- `region_files = [f for f in files if region_group in f.get('region', '')]`. -/
def regionFiles (group : String) (files : List Info) : List Info :=
  files.filter (fun f => strIn group f.region)

/-- The per-region coverage lines printed for one resolution group:
region groups with at least one matching file, each with its summed
coverage. -/
def coverageFor (files : List Info) : List (String × ℚ) :=
  (regionGroupNames.filter (fun rg => !(regionFiles rg files).isEmpty)).map
    (fun rg => (rg, totalCoverage (regionFiles rg files)))

/-- The integer recovered by `int(resolution_key.split()[0])` when it does
not raise (the key is `none` exactly when the split prefix is `"None"`). -/
def keyInt : Option ℤ → ℤ
  | some n => n
  | none => 0

/-- `sorted(..., key=lambda x: int(x[0].split()[0]), reverse=True)` once all
keys parse: stable descending sort of the resolution groups. -/
def sortGroupsDesc (gs : List (Option ℤ × List Info)) : List (Option ℤ × List Info) :=
  gs.insertionSort (fun a b => keyInt b.1 ≤ keyInt a.1)

/-- The resolution sort of `print_summary` (and of
`_analyze_resolution_overlaps`): `int("None")` raises `ValueError` as soon
as some group key comes from a record with no `pixels_per_degree`. -/
def resolutionSort (gs : List (Option ℤ × List Info)) :
    Except PyErr (List (Option ℤ × List Info)) :=
  if gs.any (fun g => g.1.isNone) then .error .valueError else .ok (sortGroupsDesc gs)

/-- The `has_south_polar` scan of `_analyze_coverage_gaps` (lines 174-181):
stop at the first record whose region contains `"South Polar"`, or whose
region contains `"Near-Polar South"` and whose `lat_min ≤ -75`; evaluating
that comparison with `lat_min = None` raises `TypeError`. -/
def southPolarScan : List Info → Except PyErr Bool
  | [] => .ok false
  | r :: rest =>
    if strIn "South Polar" r.region then .ok true
    else if strIn "Near-Polar South" r.region then
      match r.lat_min with
      | none => .error .typeError
      | some v => if v ≤ -75 then .ok true else southPolarScan rest
    else southPolarScan rest

/-- The sort key `x.get('lon_min', 0) or 0`: `None` (and `0.0`, which maps
to the same number) become `0`. -/
def lonKey (f : Info) : ℚ :=
  match f.lon_min with
  | none => 0
  | some v => v

/-- `files_sorted = sorted(files, key=lambda x: x.get('lon_min', 0) or 0)`. -/
def sortByLonMin (files : List Info) : List Info :=
  files.insertionSort (fun a b => lonKey a ≤ lonKey b)

/-- `longitude_coverage`: the `(lon_min, lon_max)` pairs of the records
having both longitude bounds, in list order. -/
def usableIntervals (files : List Info) : List (ℚ × ℚ) :=
  files.filterMap (fun f =>
    match f.lon_min, f.lon_max with
    | some a, some b => some (a, b)
    | _, _ => none)

/-- The pairwise gap walk (lines 212-218): `prev_max` starts at the first
interval's `lon_max`; each later interval contributes a gap
`(prev_max, current_min)` when `current_min - prev_max > 1.0`, and
`prev_max` is then set to the current interval's `lon_max`. -/
def gapWalk : ℚ → List (ℚ × ℚ) → List (ℚ × ℚ)
  | _, [] => []
  | prevMax, c :: rest =>
    (if c.1 - prevMax > 1 then [(prevMax, c.1)] else []) ++ gapWalk c.2 rest

/-- The gap list built from a (possibly empty) coverage list: the pairwise
walk, followed by the wraparound check of line 221: append
`(last.lon_max, first.lon_min)` when `last.lon_max < 359.0` and
`first.lon_min > 1.0`. -/
def computeGaps : List (ℚ × ℚ) → List (ℚ × ℚ)
  | [] => []
  | c :: rest =>
    gapWalk c.2 rest ++
      (if (rest.getLastD c).2 < 359 ∧ c.1 > 1 then [((rest.getLastD c).2, c.1)] else [])

/-- The gap analysis of one resolution+region group (lines 197-222): sort
the files by `lon_min`, and only when the group has more than one *file*
(usable or not) extract the usable intervals and compute the gaps. -/
def groupGaps (files : List Info) : List (ℚ × ℚ) :=
  if 1 < (sortByLonMin files).length then computeGaps (usableIntervals (sortByLonMin files))
  else []

/-- `regions = defaultdict(list)` keyed by the exact region string. -/
def groupByRegion (files : List Info) : List (String × List Info) :=
  files.foldl (fun acc r => insertKeyed r.region r acc) []

/-- The gap report of `_analyze_coverage_gaps`: per resolution group, the
non-polar region groups whose gap list is nonempty. -/
def gapsPass (gs : List (Option ℤ × List Info)) :
    List (Option ℤ × List (String × List (ℚ × ℚ))) :=
  gs.map (fun g => (g.1, (groupByRegion g.2).filterMap (fun rg =>
    if strIn "Polar" rg.1 then none
    else
      let gl := groupGaps rg.2
      if gl.isEmpty then none else some (rg.1, gl))))

/-- One entry of the `overlaps` list built for a high-resolution record. -/
structure Overlap where
  file : String
  region : String
  area : ℚ
  lat_range : ℚ × ℚ
  lon_range : ℚ × ℚ
  deriving DecidableEq, Repr

/-- The four bounds of a record, or `none` when any is missing
(`if None in [lat_min, lat_max, lon_min, lon_max]: continue`). -/
def rect (f : Info) : Option (ℚ × ℚ × ℚ × ℚ) :=
  match f.lat_min, f.lat_max, f.lon_min, f.lon_max with
  | some a, some b, some c, some d => some (a, b, c, d)
  | _, _, _, _ => none

/-- The overlap record appended for a (high, low) pair (lines 262-281), or
`none` when either record lacks a bound or the closed-interval overlap test
fails. -/
def overlapEntry (high low : Info) : Option Overlap :=
  match rect high, rect low with
  | some (hLatMin, hLatMax, hLonMin, hLonMax),
    some (lLatMin, lLatMax, lLonMin, lLonMax) =>
    if hLatMin ≤ lLatMax ∧ hLatMax ≥ lLatMin ∧ hLonMin ≤ lLonMax ∧ hLonMax ≥ lLonMin then
      some { file := low.filename
             region := low.region
             area := (min hLatMax lLatMax - max hLatMin lLatMin) *
                     (min hLonMax lLonMax - max hLonMin lLonMin)
             lat_range := (max hLatMin lLatMin, min hLatMax lLatMax)
             lon_range := (max hLonMin lLonMin, min hLonMax lLonMax) }
    else none
  | _, _ => none

/-- The `overlaps` list accumulated over the inner loop, in `lowResGroup`
order. -/
def overlapsFor (high : Info) (lows : List Info) : List Overlap :=
  lows.foldl (fun acc low =>
    match overlapEntry high low with
    | some e => acc ++ [e]
    | none => acc) []

/-- `sorted(overlaps, key=lambda x: x['area'], reverse=True)`: Python's
sort is stable and `reverse=True` keeps equal elements in input order, so
this is the stable descending sort by area. -/
def sortedOverlaps (high : Info) (lows : List Info) : List Overlap :=
  (overlapsFor high lows).insertionSort (fun a b => b.area ≤ a.area)

/-- The (high, low) pairs reported by the nested loops of
`_analyze_resolution_overlaps` for one (high group, low group) comparison:
every pair whose overlap test succeeds, both records having all bounds. -/
def overlappingPairs (A B : List Info) : List (Info × Info) :=
  A.foldl (fun acc h =>
    acc ++ (B.filter (fun l => (overlapEntry h l).isSome)).map (fun l => (h, l))) []

/-- The overlap report: consecutive pairs of the descending resolution
list, and for each high-resolution record with a nonempty overlap list its
sorted overlaps. -/
def overlapsPass (sortedGs : List (Option ℤ × List Info)) :
    List ((Option ℤ × Option ℤ) × List (String × List Overlap)) :=
  (sortedGs.zip sortedGs.tail).map (fun p =>
    ((p.1.1, p.2.1),
     p.1.2.filterMap (fun h =>
       let os := sortedOverlaps h p.2.2
       if os.isEmpty then none else some (h.filename, os))))

/-- Everything `print_summary` prints, as data. -/
structure Report where
  coverage : List (Option ℤ × List (String × ℚ))
  southPolarFound : Bool
  gaps : List (Option ℤ × List (String × List (ℚ × ℚ)))
  overlaps : List ((Option ℤ × Option ℤ) × List (String × List Overlap))

/-- `print_summary` on the grouped records (after `analyze_all_labels`),
including the `_analyze_coverage_gaps` and `_analyze_resolution_overlaps`
passes.  The two `Except.error` branches are the two statements that can
raise: the resolution sort (`int("None")` → `ValueError`, reached first)
and the south-polar scan (`None <= -75` → `TypeError`).  Every other step
is total.  The overlap pass reuses the already-validated sorted groups, and
runs only when there is more than one resolution group. -/
def print_summary (records : List Info) : Except PyErr Report :=
  match resolutionSort (analyze_all_labels records) with
  | .error e => .error e
  | .ok sortedGs =>
    match southPolarScan (flattenGroups (analyze_all_labels records)) with
    | .error e => .error e
    | .ok found =>
      .ok { coverage := sortedGs.map (fun g => (g.1, coverageFor g.2))
            southPolarFound := found
            gaps := gapsPass (analyze_all_labels records)
            overlaps :=
              if 1 < (analyze_all_labels records).length then overlapsPass sortedGs else [] }

/-! Embedding of `check_jezero_coverage.py`. -/

/-- The per-file parse result of `check_coverage`: each bound is `none`
when its line is absent, marked `N/A`, or fails `float(...)`. -/
structure JFile where
  label_file : String
  min_lat : Option ℚ
  max_lat : Option ℚ
  min_lon : Option ℚ
  max_lon : Option ℚ
  deriving DecidableEq, Repr

/-- `jezero_lat = 18.4446`. -/
def jezero_lat : ℚ := 184446 / 10000

/-- `jezero_lon = 77.4509`. -/
def jezero_lon : ℚ := 774509 / 10000

/-- Lines 87-89: a file is recorded as covering Jezero Crater iff all four
bounds parsed and `min_lat <= jezero_lat <= max_lat and
min_lon <= jezero_lon <= max_lon`. -/
def coversJezero (f : JFile) : Bool :=
  match f.min_lat, f.max_lat, f.min_lon, f.max_lon with
  | some a, some b, some c, some d =>
    decide (a ≤ jezero_lat ∧ jezero_lat ≤ b ∧ c ≤ jezero_lon ∧ jezero_lon ≤ d)
  | _, _, _, _ => false

/-- The main loop of `check_coverage`: every file is appended to
`all_files_info`, and the covering ones also to `files_covering_jezero`. -/
def check_coverage (files : List JFile) : List JFile × List JFile :=
  files.foldl (fun acc f =>
    (acc.1 ++ [f], if coversJezero f then acc.2 ++ [f] else acc.2)) ([], [])

/-! Concrete records used in examples, witnesses and counterexamples. -/

/-- A record with all four bounds and resolution 128. -/
def mkRec (name : String) (latMin latMax lonMin lonMax : ℚ) : Info :=
  { filename := name
    region := "Equatorial"
    lat_min := some latMin
    lat_max := some latMax
    lon_min := some lonMin
    lon_max := some lonMax
    pixels_per_degree := some 128
    rasterLines := none
    samples := none }

/-- A record whose `lon_max` failed to parse, everything else present. -/
def cRec2 : Info :=
  { filename := "c2.lbl"
    region := "Equatorial"
    lat_min := some 0
    lat_max := some 10
    lon_min := some 300
    lon_max := none
    pixels_per_degree := some 128
    rasterLines := none
    samples := none }

/-- A usable record with longitude interval `[10, 200]`. -/
def cRec1 : Info := mkRec "c1.lbl" 0 10 10 200

/-! ## Gap analysis: claims C4, C5, C6 and C10 -/

/-- The spec's description of the pairwise walk, transcribed: between any
two *consecutive* sorted intervals a gap `(current.lon_max, next.lon_min)`
is recorded exactly when `next.lon_min - current.lon_max > 1.0`.  This
declarative form is compared against the imperative `gapWalk` of the
source. -/
def specPairGaps (cov : List (ℚ × ℚ)) : List (ℚ × ℚ) :=
  ((cov.zip cov.tail).filter (fun p => decide (1 < p.2.1 - p.1.2))).map
    (fun p => (p.1.2, p.2.1))

lemma gapWalk_eq_specPairGaps (c : ℚ × ℚ) (rest : List (ℚ × ℚ)) :
    gapWalk c.2 rest = specPairGaps (c :: rest) := by
  induction rest generalizing c with
  | nil => rfl
  | cons d rest ih =>
    have hd := ih d
    by_cases h : d.1 - c.2 > 1 <;>
      simp [gapWalk, specPairGaps, List.filter_cons, h, hd]

/-- C4: for every group, after sorting the usable intervals by `lon_min`,
a gap `(current.lon_max, next.lon_min)` is recorded between consecutive
intervals iff `next.lon_min - current.lon_max > 1.0`; concretely,
intervals `[0,100]` and `[105,200]` yield `[(100,105)]`, and
`[0,100],[100,200],[200,360]` yield no gaps. -/
theorem gap_recorded_iff_threshold :
    (∀ (c : ℚ × ℚ) (rest : List (ℚ × ℚ)), gapWalk c.2 rest = specPairGaps (c :: rest))
    ∧ groupGaps [mkRec "a.lbl" 0 10 0 100, mkRec "b.lbl" 0 10 105 200] = [(100, 105)]
    ∧ groupGaps [mkRec "a.lbl" 0 10 0 100, mkRec "b.lbl" 0 10 100 200,
        mkRec "c.lbl" 0 10 200 360] = [] :=
  ⟨gapWalk_eq_specPairGaps, by with_unfolding_all decide, by with_unfolding_all decide⟩

/-- C5: a wraparound gap `(last.lon_max, first.lon_min)` is appended to
the pairwise gaps iff the sorted list's last interval has `lon_max < 359`
and its first has `lon_min > 1`; concretely `[10,200]` and `[210,350]`
yield the pairwise gap `(200,210)` plus the wraparound gap `(350,10)`. -/
theorem wraparound_gap_iff :
    (∀ (c : ℚ × ℚ) (rest : List (ℚ × ℚ)),
        (((rest.getLastD c).2 < 359 ∧ 1 < c.1) →
          computeGaps (c :: rest) = specPairGaps (c :: rest) ++ [((rest.getLastD c).2, c.1)])
      ∧ (¬((rest.getLastD c).2 < 359 ∧ 1 < c.1) →
          computeGaps (c :: rest) = specPairGaps (c :: rest)))
    ∧ groupGaps [mkRec "a.lbl" 0 10 10 200, mkRec "b.lbl" 0 10 210 350] =
        [(200, 210), (350, 10)] := by
  refine ⟨fun c rest => ⟨fun h => ?_, fun h => ?_⟩, by with_unfolding_all decide⟩
  · simp only [computeGaps, gapWalk_eq_specPairGaps c rest, if_pos h]
  · simp only [computeGaps, gapWalk_eq_specPairGaps c rest, if_neg h, List.append_nil]

theorem wraparound_gap_iff_witness :
    computeGaps [((10 : ℚ), (200 : ℚ)), (210, 350)] =
      specPairGaps [((10 : ℚ), (200 : ℚ)), (210, 350)] ++ [(350, 10)] :=
  (wraparound_gap_iff.1 (10, 200) [(210, 350)]).1 (by with_unfolding_all decide)

/-- C6 counterexample: a group of two files of which only one has both
longitude bounds (one usable interval, so "fewer than 2 usable
intervals") still reports a wraparound gap, because the guard of the gap
check counts files (`len(files_sorted) > 1`), not usable intervals, and
the wraparound check fires on a single interval. -/
theorem single_usable_interval_still_gaps :
    (usableIntervals (sortByLonMin [cRec1, cRec2])).length = 1
    ∧ groupGaps [cRec1, cRec2] = [(200, 10)]
    ∧ groupGaps [cRec1, cRec2] ≠ [] := by
  refine ⟨by with_unfolding_all decide, by with_unfolding_all decide,
    by with_unfolding_all decide⟩

/-- C6 (amended): a group with fewer than 2 files reports no gaps; a group
with no usable interval reports no gaps; and a group with more than one
file but a single usable interval reports no pairwise gaps, though it
still reports the wraparound gap when that interval has `lon_max < 359`
and `lon_min > 1`. -/
theorem gap_check_insufficient_data :
    (∀ files : List Info, files.length ≤ 1 → groupGaps files = [])
    ∧ (∀ files : List Info, usableIntervals (sortByLonMin files) = [] → groupGaps files = [])
    ∧ (∀ (files : List Info) (c : ℚ × ℚ), 1 < files.length →
        usableIntervals (sortByLonMin files) = [c] →
        groupGaps files = if c.2 < 359 ∧ 1 < c.1 then [(c.2, c.1)] else []) := by
  refine ⟨fun files h => ?_, fun files h => ?_, fun files c hlen h => ?_⟩
  · have hlen : (sortByLonMin files).length = files.length :=
      List.length_insertionSort _ _
    unfold groupGaps
    rw [if_neg (by omega)]
  · unfold groupGaps
    split
    · rw [h]; rfl
    · rfl
  · have e : (sortByLonMin files).length = files.length := List.length_insertionSort _ _
    unfold groupGaps
    rw [if_pos (by omega), h]
    simp only [computeGaps, gapWalk, List.getLastD, List.nil_append]

theorem gap_check_insufficient_data_witness :
    groupGaps [cRec1, cRec2] =
      if (200 : ℚ) < 359 ∧ 1 < (10 : ℚ) then [((200 : ℚ), (10 : ℚ))] else [] :=
  gap_check_insufficient_data.2.2 [cRec1, cRec2] (10, 200) (by decide)
    (by with_unfolding_all decide)

/-- C10: every gap produced by the pairwise walk has
`upper - lower > 1`, hence upper strictly exceeds lower; any gap in the
full gap list either has its endpoints in increasing order or is the
wraparound pair `(last.lon_max, first.lon_min)`. -/
theorem pairwise_gap_endpoints_ordered :
    (∀ (prevMax : ℚ) (cov : List (ℚ × ℚ)) (g : ℚ × ℚ),
        g ∈ gapWalk prevMax cov → 1 < g.2 - g.1 ∧ g.1 < g.2)
    ∧ (∀ (c : ℚ × ℚ) (rest : List (ℚ × ℚ)) (g : ℚ × ℚ), g ∈ computeGaps (c :: rest) →
        g.1 < g.2 ∨ g = ((rest.getLastD c).2, c.1)) := by
  have main : ∀ (cov : List (ℚ × ℚ)) (prevMax : ℚ) (g : ℚ × ℚ),
      g ∈ gapWalk prevMax cov → 1 < g.2 - g.1 ∧ g.1 < g.2 := by
    intro cov
    induction cov with
    | nil => intro p g hg; cases hg
    | cons c rest ih =>
      intro p g hg
      rcases List.mem_append.1 hg with h1 | h2
      · by_cases hc : c.1 - p > 1
        · rw [if_pos hc] at h1
          have hgp := List.mem_singleton.1 h1
          subst hgp
          exact ⟨hc, by linarith⟩
        · rw [if_neg hc] at h1
          cases h1
      · exact ih c.2 g h2
  refine ⟨fun p cov g hg => main cov p g hg, fun c rest g hg => ?_⟩
  rcases List.mem_append.1 hg with h1 | h2
  · exact Or.inl (main rest c.2 g h1).2
  · by_cases hc : (rest.getLastD c).2 < 359 ∧ c.1 > 1
    · rw [if_pos hc] at h2
      exact Or.inr (List.mem_singleton.1 h2)
    · rw [if_neg hc] at h2
      cases h2

theorem pairwise_gap_endpoints_ordered_witness :
    1 < ((100 : ℚ), (105 : ℚ)).2 - ((100 : ℚ), (105 : ℚ)).1
    ∧ ((100 : ℚ), (105 : ℚ)).1 < ((100 : ℚ), (105 : ℚ)).2 :=
  pairwise_gap_endpoints_ordered.1 100 [(105, 200)] (100, 105)
    (by with_unfolding_all decide)

/-! ## Overlap analysis: claims C3, C7 and C8 -/

lemma overlapsFor_eq_filterMap (high : Info) (lows : List Info) :
    overlapsFor high lows = lows.filterMap (overlapEntry high) := by
  have main : ∀ (l : List Info) (acc : List Overlap),
      l.foldl (fun acc low =>
          match overlapEntry high low with
          | some e => acc ++ [e]
          | none => acc) acc = acc ++ l.filterMap (overlapEntry high) := by
    intro l
    induction l with
    | nil => intro acc; simp
    | cons x xs ih =>
      intro acc
      simp only [List.foldl_cons, List.filterMap_cons]
      cases h : overlapEntry high x with
      | none => simp only [ih]
      | some e => simp only [ih, List.append_assoc, List.singleton_append]
  simpa using main lows []

/-- A high-resolution record sharing its western edge with `cLow`. -/
def cHigh : Info := mkRec "h.lbl" 0 10 5 15

/-- A low-resolution record whose eastern edge is `cHigh`'s western edge. -/
def cLow : Info := mkRec "l.lbl" 0 10 0 5

/-- C3: with all eight bounds present, an overlap entry exists iff the
closed-interval test of the source holds; its rectangle is
`[max lat_min, min lat_max] x [max lon_min, min lon_max]` and its area the
product of the edge lengths; the entry lands in the high record's overlap
list; the area is nonnegative for valid rectangles; and rectangles sharing
exactly one boundary give area 0. -/
theorem overlap_test_rect_area (high low : Info)
    (hLatMin hLatMax hLonMin hLonMax lLatMin lLatMax lLonMin lLonMax : ℚ)
    (e1 : high.lat_min = some hLatMin) (e2 : high.lat_max = some hLatMax)
    (e3 : high.lon_min = some hLonMin) (e4 : high.lon_max = some hLonMax)
    (e5 : low.lat_min = some lLatMin) (e6 : low.lat_max = some lLatMax)
    (e7 : low.lon_min = some lLonMin) (e8 : low.lon_max = some lLonMax) :
    ((overlapEntry high low).isSome ↔
      (hLatMin ≤ lLatMax ∧ hLatMax ≥ lLatMin ∧ hLonMin ≤ lLonMax ∧ hLonMax ≥ lLonMin))
    ∧ (∀ ov, overlapEntry high low = some ov →
        ov.lat_range = (max hLatMin lLatMin, min hLatMax lLatMax)
        ∧ ov.lon_range = (max hLonMin lLonMin, min hLonMax lLonMax)
        ∧ ov.area = (min hLatMax lLatMax - max hLatMin lLatMin) *
            (min hLonMax lLonMax - max hLonMin lLonMin))
    ∧ (∀ lows, low ∈ lows → ∀ ov, overlapEntry high low = some ov →
        ov ∈ overlapsFor high lows)
    ∧ (hLatMin ≤ hLatMax → lLatMin ≤ lLatMax → hLonMin ≤ hLonMax → lLonMin ≤ lLonMax →
        ∀ ov, overlapEntry high low = some ov → 0 ≤ ov.area)
    ∧ (hLonMin ≤ hLonMax → lLonMin ≤ lLonMax → hLonMin = lLonMax →
        ∀ ov, overlapEntry high low = some ov → ov.area = 0) := by
  have rh : rect high = some (hLatMin, hLatMax, hLonMin, hLonMax) := by
    simp [rect, e1, e2, e3, e4]
  have rl : rect low = some (lLatMin, lLatMax, lLonMin, lLonMax) := by
    simp [rect, e5, e6, e7, e8]
  have hmemPart : ∀ lows, low ∈ lows → ∀ ov, overlapEntry high low = some ov →
      ov ∈ overlapsFor high lows := by
    intro lows hmem ov hov
    rw [overlapsFor_eq_filterMap]
    exact List.mem_filterMap.mpr ⟨low, hmem, hov⟩
  by_cases hcond : hLatMin ≤ lLatMax ∧ hLatMax ≥ lLatMin ∧ hLonMin ≤ lLonMax ∧ hLonMax ≥ lLonMin
  · have hent : overlapEntry high low = some
        { file := low.filename
          region := low.region
          area := (min hLatMax lLatMax - max hLatMin lLatMin) *
                  (min hLonMax lLonMax - max hLonMin lLonMin)
          lat_range := (max hLatMin lLatMin, min hLatMax lLatMax)
          lon_range := (max hLonMin lLonMin, min hLonMax lLonMax) } := by
      simp only [overlapEntry, rh, rl, if_pos hcond]
    obtain ⟨c1, c2, c3, c4⟩ := hcond
    refine ⟨by simp [hent, c1, c2, c3, c4], ?_, hmemPart, ?_, ?_⟩
    · intro ov hov
      rw [hent] at hov
      injection hov with h
      subst h
      exact ⟨rfl, rfl, rfl⟩
    · intro hv1 hv2 hv3 hv4 ov hov
      rw [hent] at hov
      injection hov with h
      subst h
      have hlat : max hLatMin lLatMin ≤ min hLatMax lLatMax :=
        le_min (max_le hv1 c2) (max_le c1 hv2)
      have hlon : max hLonMin lLonMin ≤ min hLonMax lLonMax :=
        le_min (max_le hv3 c4) (max_le c3 hv4)
      exact mul_nonneg (sub_nonneg.mpr hlat) (sub_nonneg.mpr hlon)
    · intro hv3 hv4 heq ov hov
      rw [hent] at hov
      injection hov with h
      subst h
      have h1 : min hLonMax lLonMax = lLonMax := min_eq_right (by rw [← heq]; exact hv3)
      have h2 : max hLonMin lLonMin = hLonMin := max_eq_left (by rw [heq]; exact hv4)
      show (min hLatMax lLatMax - max hLatMin lLatMin) *
          (min hLonMax lLonMax - max hLonMin lLonMin) = 0
      rw [h1, h2, ← heq, sub_self, mul_zero]
  · have hent : overlapEntry high low = none := by
      simp only [overlapEntry, rh, rl, if_neg hcond]
    refine ⟨by simp [hent, hcond], ?_, hmemPart, ?_, ?_⟩
    · intro ov hov
      rw [hent] at hov
      cases hov
    · intro _ _ _ _ ov hov
      rw [hent] at hov
      cases hov
    · intro _ _ _ ov hov
      rw [hent] at hov
      cases hov

theorem overlap_test_rect_area_witness :
    (overlapEntry cHigh cLow).isSome
    ∧ (∀ ov, overlapEntry cHigh cLow = some ov → ov.area = 0) := by
  have T := overlap_test_rect_area cHigh cLow 0 10 5 15 0 10 0 5
    rfl rfl rfl rfl rfl rfl rfl rfl
  exact ⟨T.1.mpr ⟨by norm_num, by norm_num, le_refl (5 : ℚ), by norm_num⟩,
    T.2.2.2.2 (by norm_num) (by norm_num) rfl⟩

/-- High-resolution record for the sort-stability example. -/
def sHigh : Info := mkRec "h.lbl" 0 10 0 10

/-- Low-resolution candidate with overlap area 5 (first). -/
def sLowA : Info := mkRec "la.lbl" 0 1 0 5

/-- Low-resolution candidate with overlap area 20. -/
def sLowB : Info := mkRec "lb.lbl" 0 2 0 10

/-- Low-resolution candidate with overlap area 5 (second). -/
def sLowC : Info := mkRec "lc.lbl" 0 5 0 1

/-- The entry `sLowA` produces against `sHigh`. -/
def sEntryA : Overlap :=
  { file := "la.lbl", region := "Equatorial", area := 5, lat_range := (0, 1), lon_range := (0, 5) }

/-- The entry `sLowB` produces against `sHigh`. -/
def sEntryB : Overlap :=
  { file := "lb.lbl", region := "Equatorial", area := 20, lat_range := (0, 2),
    lon_range := (0, 10) }

/-- The entry `sLowC` produces against `sHigh`. -/
def sEntryC : Overlap :=
  { file := "lc.lbl", region := "Equatorial", area := 5, lat_range := (0, 5), lon_range := (0, 1) }

/-- C7: the reported overlap list is sorted by area descending, the sort
is stable (two entries with equal areas keep their `lowResGroup` order),
and the concrete 5.0, 20.0, 5.0 example comes out as 20.0, then the first
5.0, then the second 5.0. -/
theorem overlaps_sorted_desc_stable :
    (∀ (high : Info) (lows : List Info),
        List.Sorted (fun a b : Overlap => b.area ≤ a.area) (sortedOverlaps high lows))
    ∧ (∀ (high : Info) (lows : List Info) (x y : Overlap), x.area = y.area →
        [x, y].Sublist (overlapsFor high lows) → [x, y].Sublist (sortedOverlaps high lows))
    ∧ overlapsFor sHigh [sLowA, sLowB, sLowC] = [sEntryA, sEntryB, sEntryC]
    ∧ sortedOverlaps sHigh [sLowA, sLowB, sLowC] = [sEntryB, sEntryA, sEntryC] := by
  haveI : IsTotal Overlap (fun a b => b.area ≤ a.area) := ⟨fun a b => le_total b.area a.area⟩
  haveI : IsTrans Overlap (fun a b => b.area ≤ a.area) :=
    ⟨fun _ _ _ h1 h2 => le_trans h2 h1⟩
  refine ⟨fun high lows => List.sorted_insertionSort _ _,
    fun high lows x y hxy hsub => List.pair_sublist_insertionSort (le_of_eq hxy.symm) hsub,
    by with_unfolding_all decide, by with_unfolding_all decide⟩

theorem overlaps_sorted_desc_stable_witness :
    [sEntryA, sEntryC].Sublist (sortedOverlaps sHigh [sLowA, sLowB, sLowC]) := by
  apply overlaps_sorted_desc_stable.2.1 sHigh [sLowA, sLowB, sLowC] sEntryA sEntryC rfl
  rw [overlaps_sorted_desc_stable.2.2.1]
  exact (List.Sublist.cons sEntryB (List.Sublist.refl [sEntryC])).cons₂ sEntryA

lemma overlappingPairs_eq (A B : List Info) :
    overlappingPairs A B =
      A.flatMap (fun h => (B.filter (fun l => (overlapEntry h l).isSome)).map (fun l => (h, l))) := by
  have main : ∀ (l : List Info) (acc : List (Info × Info)),
      l.foldl (fun acc h =>
          acc ++ (B.filter (fun l => (overlapEntry h l).isSome)).map (fun l => (h, l))) acc =
        acc ++ l.flatMap (fun h =>
          (B.filter (fun l => (overlapEntry h l).isSome)).map (fun l => (h, l))) := by
    intro l
    induction l with
    | nil => intro acc; simp
    | cons x xs ih =>
      intro acc
      simp [ih, List.append_assoc]
  simpa using main A []

/-- C8: the overlapping pairs computed with A as the high group and B as
the low group are exactly the overlapping pairs with the roles swapped,
and both directions record the same overlap rectangle and area. -/
theorem overlap_roles_swap_symmetric :
    (∀ (A B : List Info) (a b : Info),
        (a, b) ∈ overlappingPairs A B ↔ a ∈ A ∧ b ∈ B ∧ (overlapEntry a b).isSome)
    ∧ (∀ a b : Info, (overlapEntry a b).isSome = (overlapEntry b a).isSome)
    ∧ (∀ (A B : List Info) (a b : Info),
        (a, b) ∈ overlappingPairs A B ↔ (b, a) ∈ overlappingPairs B A)
    ∧ (∀ (a b : Info) (e e2 : Overlap), overlapEntry a b = some e →
        overlapEntry b a = some e2 →
        e.area = e2.area ∧ e.lat_range = e2.lat_range ∧ e.lon_range = e2.lon_range) := by
  have hmem : ∀ (A B : List Info) (a b : Info),
      (a, b) ∈ overlappingPairs A B ↔ a ∈ A ∧ b ∈ B ∧ (overlapEntry a b).isSome := by
    intro A B a b
    rw [overlappingPairs_eq]
    simp only [List.mem_flatMap, List.mem_map, List.mem_filter, Prod.mk.injEq]
    constructor
    · rintro ⟨h, hh, l, ⟨hl, hs⟩, he, rfl⟩
      subst he
      exact ⟨hh, hl, hs⟩
    · rintro ⟨ha, hb, hs⟩
      exact ⟨a, ha, b, ⟨hb, hs⟩, rfl, rfl⟩
  have hsymm : ∀ a b : Info, (overlapEntry a b).isSome = (overlapEntry b a).isSome := by
    intro a b
    cases ha : rect a with
    | none => simp [overlapEntry, ha]
    | some pa =>
      cases hb : rect b with
      | none => simp [overlapEntry, ha, hb]
      | some pb =>
        obtain ⟨a1, a2, a3, a4⟩ := pa
        obtain ⟨b1, b2, b3, b4⟩ := pb
        simp only [overlapEntry, ha, hb]
        by_cases h : a1 ≤ b2 ∧ a2 ≥ b1 ∧ a3 ≤ b4 ∧ a4 ≥ b3
        · rw [if_pos h, if_pos ⟨h.2.1, h.1, h.2.2.2, h.2.2.1⟩]
          rfl
        · rw [if_neg h, if_neg (fun h2 => h ⟨h2.2.1, h2.1, h2.2.2.2, h2.2.2.1⟩)]
  refine ⟨hmem, hsymm, ?_, ?_⟩
  · intro A B a b
    rw [hmem, hmem, hsymm]
    tauto
  · intro a b e e2 he he2
    cases ha : rect a with
    | none => rw [overlapEntry, ha] at he; cases he
    | some pa =>
      cases hb : rect b with
      | none =>
        obtain ⟨a1, a2, a3, a4⟩ := pa
        rw [overlapEntry, ha, hb] at he
        cases he
      | some pb =>
        obtain ⟨a1, a2, a3, a4⟩ := pa
        obtain ⟨b1, b2, b3, b4⟩ := pb
        simp only [overlapEntry, ha, hb] at he
        simp only [overlapEntry, hb, ha] at he2
        by_cases h : a1 ≤ b2 ∧ a2 ≥ b1 ∧ a3 ≤ b4 ∧ a4 ≥ b3
        · rw [if_pos h] at he
          rw [if_pos ⟨h.2.1, h.1, h.2.2.2, h.2.2.1⟩] at he2
          injection he with he
          injection he2 with he2
          subst he
          subst he2
          refine ⟨?_, ?_, ?_⟩ <;>
            simp [min_comm, max_comm]
        · rw [if_neg h] at he
          cases he

theorem overlap_roles_swap_symmetric_witness :
    (cLow, cHigh) ∈ overlappingPairs [cLow] [cHigh] := by
  apply (overlap_roles_swap_symmetric.2.2.1 [cHigh] [cLow] cHigh cLow).mp
  with_unfolding_all decide

/-! ## Region coverage: claim C2 -/

/-- A record whose `MAXIMUM_LATITUDE` is `0.0` (the equator), all four
bounds present. -/
def zRec : Info :=
  { filename := "megt44s.lbl"
    region := "Mid-South"
    lat_min := some (-44)
    lat_max := some 0
    lon_min := some 10
    lon_max := some 20
    pixels_per_degree := some 4
    rasterLines := none
    samples := none }

/-- C2 (the code deviates): `zRec` has all four bounds present, so per the
claim it must contribute `|0-(-44)| * |20-10| = 440` to the region sum;
the source tests the bounds with Python truthiness
(`if (file_info['lat_max'] and file_info['lat_min'])`), treats the present
value `0.0` as missing and adds `0`.  A record genuinely missing a bound
(`cRec2`) does contribute `0` and still appears in the region listing. -/
theorem coverage_drops_zero_bound :
    totalCoverage [zRec] = 0
    ∧ |(0 : ℚ) - (-44)| * |(20 : ℚ) - 10| = 440
    ∧ zRec.lat_min = some (-44) ∧ zRec.lat_max = some 0
    ∧ zRec.lon_min = some 10 ∧ zRec.lon_max = some 20
    ∧ fileCoverage cRec2 = 0
    ∧ regionFiles "Equatorial" [cRec2] = [cRec2]
    ∧ totalCoverage [cRec2] = 0 := by
  refine ⟨?_, ?_, rfl, rfl, rfl, rfl, ?_, ?_, ?_⟩ <;> with_unfolding_all decide

/-! ## Jezero Crater coverage: claim C9 -/

lemma check_coverage_spec (files : List JFile) :
    check_coverage files = (files, files.filter coversJezero) := by
  have main : ∀ (l : List JFile) (acc : List JFile × List JFile),
      l.foldl (fun acc f =>
          (acc.1 ++ [f], if coversJezero f then acc.2 ++ [f] else acc.2)) acc =
        (acc.1 ++ l, acc.2 ++ l.filter coversJezero) := by
    intro l
    induction l with
    | nil => intro acc; simp
    | cons f fs ih =>
      intro acc
      by_cases h : coversJezero f = true <;>
        simp [List.filter_cons, h, ih]
  have := main files ([], [])
  simpa [check_coverage] using this

/-- C9: `check_coverage` lists a file as covering Jezero Crater iff all
four bounds parsed and the point `(18.4446, 77.4509)` lies inside both
closed intervals; a file with any unparsed bound is never listed as
covering, yet every file appears in the all-files listing. -/
theorem check_coverage_lists_iff :
    (∀ files : List JFile,
        (check_coverage files).1 = files
        ∧ (check_coverage files).2 = files.filter coversJezero)
    ∧ (∀ f : JFile, coversJezero f = true ↔
        ∃ a b c d : ℚ, f.min_lat = some a ∧ f.max_lat = some b ∧ f.min_lon = some c
          ∧ f.max_lon = some d
          ∧ a ≤ jezero_lat ∧ jezero_lat ≤ b ∧ c ≤ jezero_lon ∧ jezero_lon ≤ d)
    ∧ (∀ (files : List JFile) (f : JFile),
        f ∈ (check_coverage files).2 ↔ f ∈ files ∧ coversJezero f = true)
    ∧ (∀ f : JFile,
        (f.min_lat = none ∨ f.max_lat = none ∨ f.min_lon = none ∨ f.max_lon = none) →
          coversJezero f = false) := by
  refine ⟨fun files => by rw [check_coverage_spec]; exact ⟨rfl, rfl⟩, ?_, ?_, ?_⟩
  · intro f
    cases h1 : f.min_lat <;> cases h2 : f.max_lat <;> cases h3 : f.min_lon <;>
      cases h4 : f.max_lon <;>
      simp [coversJezero, h1, h2, h3, h4]
  · intro files f
    rw [check_coverage_spec]
    simp [List.mem_filter]
  · intro f h
    rcases h with h | h | h | h <;>
      cases h1 : f.min_lat <;> cases h2 : f.max_lat <;> cases h3 : f.min_lon <;>
        cases h4 : f.max_lon <;>
        simp_all [coversJezero]

/-- A file whose bounds enclose Jezero Crater. -/
def jGood : JFile :=
  { label_file := "megt00n090hb.lbl"
    min_lat := some 0
    max_lat := some 44
    min_lon := some 0
    max_lon := some 90 }

/-- A file whose `MINIMUM_LATITUDE` did not parse. -/
def jBad : JFile :=
  { label_file := "megt_n_88.lbl"
    min_lat := none
    max_lat := some 44
    min_lon := some 0
    max_lon := some 90 }

theorem check_coverage_lists_iff_witness :
    coversJezero jGood = true ∧ coversJezero jBad = false := by
  constructor
  · exact (check_coverage_lists_iff.2.1 jGood).mpr
      ⟨0, 44, 0, 90, rfl, rfl, rfl, rfl,
        by norm_num [jezero_lat], by norm_num [jezero_lat],
        by norm_num [jezero_lon], by norm_num [jezero_lon]⟩
  · exact check_coverage_lists_iff.2.2.2 jBad (Or.inl rfl)

/-! ## The full analysis run: claim C1 -/

lemma insertKeyed_key_prop {κ : Type} [DecidableEq κ] (P : κ → Prop) (key : κ) (r : Info) :
    ∀ acc : List (κ × List Info), (∀ g ∈ acc, P g.1) → P key →
      ∀ g ∈ insertKeyed key r acc, P g.1 := by
  intro acc
  induction acc with
  | nil =>
    intro _ hk g hg
    simp only [insertKeyed, List.mem_singleton] at hg
    subst hg
    exact hk
  | cons a acc ih =>
    intro hacc hk g hg
    simp only [insertKeyed] at hg
    by_cases h : a.1 = key
    · rw [if_pos h] at hg
      rcases List.mem_cons.1 hg with h1 | h2
      · subst h1
        exact hacc a (List.mem_cons_self a acc)
      · exact hacc g (List.mem_cons_of_mem a h2)
    · rw [if_neg h] at hg
      rcases List.mem_cons.1 hg with rfl | h2
      · exact hacc _ (List.mem_cons_self _ _)
      · exact ih (fun g2 hg2 => hacc g2 (List.mem_cons_of_mem a hg2)) hk g h2

lemma foldl_insertKeyed_key_prop {κ : Type} [DecidableEq κ] (P : κ → Prop)
    (keyOf : Info → κ) :
    ∀ (l : List Info) (acc : List (κ × List Info)), (∀ g ∈ acc, P g.1) →
      (∀ r ∈ l, P (keyOf r)) →
      ∀ g ∈ l.foldl (fun acc r => insertKeyed (keyOf r) r acc) acc, P g.1 := by
  intro l
  induction l with
  | nil => intro acc hacc _ g hg; exact hacc g hg
  | cons r rs ih =>
    intro acc hacc hl g hg
    exact ih _
      (insertKeyed_key_prop P (keyOf r) r acc hacc (hl r (List.mem_cons_self r rs)))
      (fun x hx => hl x (List.mem_cons_of_mem r hx)) g hg

lemma mem_flattenGroups {κ : Type} (gs : List (κ × List Info)) (x : Info) :
    x ∈ flattenGroups gs ↔ ∃ g ∈ gs, x ∈ g.2 := by
  induction gs with
  | nil => simp [flattenGroups]
  | cons g gs ih =>
    show x ∈ g.2 ++ flattenGroups gs ↔ _
    simp [List.mem_append, ih]

lemma insertKeyed_mem_prop {κ : Type} [DecidableEq κ] (P : Info → Prop) (key : κ) (r : Info) :
    ∀ acc : List (κ × List Info), (∀ g ∈ acc, ∀ x ∈ g.2, P x) → P r →
      ∀ g ∈ insertKeyed key r acc, ∀ x ∈ g.2, P x := by
  intro acc
  induction acc with
  | nil =>
    intro _ hr g hg x hx
    simp only [insertKeyed, List.mem_singleton] at hg
    subst hg
    simp only [List.mem_singleton] at hx
    subst hx
    exact hr
  | cons a acc ih =>
    intro hacc hr g hg x hx
    simp only [insertKeyed] at hg
    by_cases h : a.1 = key
    · rw [if_pos h] at hg
      rcases List.mem_cons.1 hg with h1 | h2
      · subst h1
        simp only [List.mem_append, List.mem_singleton] at hx
        rcases hx with hx | hx
        · exact hacc a (List.mem_cons_self a acc) x hx
        · subst hx
          exact hr
      · exact hacc g (List.mem_cons_of_mem a h2) x hx
    · rw [if_neg h] at hg
      rcases List.mem_cons.1 hg with rfl | h2
      · exact hacc _ (List.mem_cons_self _ _) x hx
      · exact ih (fun g2 hg2 => hacc g2 (List.mem_cons_of_mem a hg2)) hr g h2 x hx

lemma foldl_insertKeyed_mem_prop {κ : Type} [DecidableEq κ] (P : Info → Prop)
    (keyOf : Info → κ) :
    ∀ (l : List Info) (acc : List (κ × List Info)), (∀ g ∈ acc, ∀ x ∈ g.2, P x) →
      (∀ r ∈ l, P r) →
      ∀ g ∈ l.foldl (fun acc r => insertKeyed (keyOf r) r acc) acc, ∀ x ∈ g.2, P x := by
  intro l
  induction l with
  | nil => intro acc hacc _ g hg; exact hacc g hg
  | cons r rs ih =>
    intro acc hacc hl g hg
    exact ih _
      (insertKeyed_mem_prop P (keyOf r) r acc hacc (hl r (List.mem_cons_self r rs)))
      (fun x hx => hl x (List.mem_cons_of_mem r hx)) g hg

lemma southPolarScan_ok (l : List Info) (h : ∀ r ∈ l, r.lat_min.isSome) :
    ∃ b, southPolarScan l = .ok b := by
  induction l with
  | nil => exact ⟨false, rfl⟩
  | cons r rest ih =>
    by_cases h1 : strIn "South Polar" r.region = true
    · exact ⟨true, by simp [southPolarScan, h1]⟩
    · obtain ⟨b, hb⟩ := ih (fun x hx => h x (List.mem_cons_of_mem r hx))
      by_cases h2 : strIn "Near-Polar South" r.region = true
      · obtain ⟨v, hv⟩ :=
          Option.isSome_iff_exists.1 (h r (List.mem_cons_self r rest))
        by_cases h3 : v ≤ -75
        · exact ⟨true, by simp [southPolarScan, h1, h2, hv, h3]⟩
        · exact ⟨b, by simp [southPolarScan, h1, h2, hv, h3, hb]⟩
      · exact ⟨b, by simp [southPolarScan, h1, h2, hb]⟩

/-- C1 counterexample: a single record with every geographic bound present
but no recognisable `pixels_per_degree` makes the whole analysis raise
`ValueError`, because the resolution sort evaluates `int("None")` on the
group key `"None pixels/degree"`. -/
def nRec : Info :=
  { filename := "unknown.lbl"
    region := "Unknown"
    lat_min := some 0
    lat_max := some 1
    lon_min := some 0
    lon_max := some 1
    pixels_per_degree := none
    rasterLines := none
    samples := none }

/-- C1 fails as stated: on a collection containing `nRec` (all bounds
present, `pixels_per_degree` absent) the analysis does not complete; it
raises `ValueError`. -/
theorem print_summary_missing_resolution_raises :
    print_summary [nRec] = .error .valueError := by
  with_unfolding_all rfl

/-- C1 (amended): the analysis completes without raising provided every
record has a parsed `pixels_per_degree` (otherwise the resolution sort
raises `ValueError` on `int("None")`) and every record has a parsed
`lat_min` (otherwise the south-polar scan can raise `TypeError` on
`None <= -75`); all other missing fields only remove the record from the
computation that needs them. -/
theorem print_summary_total_of_fields_present (records : List Info)
    (hres : ∀ r ∈ records, r.pixels_per_degree.isSome)
    (hlat : ∀ r ∈ records, r.lat_min.isSome) :
    ∃ rep, print_summary records = .ok rep := by
  have hkeys : ∀ g ∈ analyze_all_labels records, g.1.isSome = true := by
    unfold analyze_all_labels
    exact foldl_insertKeyed_key_prop (fun k : Option ℤ => k.isSome = true)
      (fun r => r.pixels_per_degree) records [] (by simp) hres
  have hsort : resolutionSort (analyze_all_labels records) =
      .ok (sortGroupsDesc (analyze_all_labels records)) := by
    have hno : ¬((analyze_all_labels records).any (fun g => g.1.isNone) = true) := by
      rw [List.any_eq_true]
      rintro ⟨g, hg, hnone⟩
      have h2 := hkeys g hg
      rw [Option.isNone_iff_eq_none] at hnone
      rw [hnone] at h2
      simp at h2
    unfold resolutionSort
    rw [if_neg hno]
  have hmem : ∀ x ∈ flattenGroups (analyze_all_labels records), x ∈ records := by
    intro x hx
    obtain ⟨g, hg, hxg⟩ := (mem_flattenGroups _ x).1 hx
    unfold analyze_all_labels at hg
    exact foldl_insertKeyed_mem_prop (fun r => r ∈ records)
      (fun r => r.pixels_per_degree) records [] (by simp) (fun r hr => hr) g hg x hxg
  obtain ⟨b, hb⟩ := southPolarScan_ok _ (fun x hx => hlat x (hmem x hx))
  refine ⟨Report.mk
    ((sortGroupsDesc (analyze_all_labels records)).map (fun g => (g.1, coverageFor g.2)))
    b (gapsPass (analyze_all_labels records))
    (if 1 < (analyze_all_labels records).length then
      overlapsPass (sortGroupsDesc (analyze_all_labels records)) else []), ?_⟩
  unfold print_summary
  simp only [hsort, hb]

theorem print_summary_total_of_fields_present_witness :
    ∃ rep, print_summary [mkRec "megt90n000cb.lbl" 0 10 0 100] = .ok rep :=
  print_summary_total_of_fields_present _ (by with_unfolding_all decide)
    (by with_unfolding_all decide)
